import Mathlib

/-!
Verification of the cost-model repository's aggregation and reconciliation
engine (package `costmodel`: `aggregations.go` and the HTTP/reconciler file).

Modelling conventions for the shallow embedding:
* Go `float64` arithmetic is modelled by exact rationals (`ℚ`).
* Go strings that are only ever consumed through `strconv.ParseFloat` are
  modelled by their parse outcome: `Option ℚ` (`none` = the string fails to
  parse; Go's `ParseFloat` then yields `0` together with an error, and every
  call site in this code discards the error and keeps the `0`).
* Go maps built by a sequence of inserts are modelled by association lists in
  insertion order; a lookup returns the value of the last insert for the key.
* A Go nil-pointer dereference or out-of-range index (a panic) is modelled by
  an `Option`-valued function returning `none`.
* In-place mutation of a slice passed into a function is modelled by
  returning the post-call contents of that slice alongside the result.
-/

namespace CostModel

/-- One time-series point: `Vector` from the source, with `float64`
timestamp (unix seconds) and value modelled as rationals. -/
structure Vector where
  timestamp : ℚ
  value : ℚ
deriving DecidableEq, Repr

/-- Go's `math.Round`: round half away from zero. -/
def goRound (x : ℚ) : ℤ :=
  if 0 ≤ x then ⌊x + 1 / 2⌋ else -⌊-x + 1 / 2⌋

/-- The timestamp normalization `math.Round(t/10)*10`: snap to the nearest
multiple of 10 seconds. -/
def snapTs (t : ℚ) : ℚ :=
  (goRound (t / 10) : ℚ) * 10

/-- The in-place effect of `addVectors` on one point of an input slice:
a point with zero timestamp is left untouched (the loop `continue`s),
any other timestamp is snapped to the 10-second grid. -/
def snapVec (v : Vector) : Vector :=
  if v.timestamp = 0 then v else { v with timestamp := snapTs v.timestamp }

/-- The in-place effect of `addVectors` on a whole input slice. -/
def snapList (l : List Vector) : List Vector :=
  l.map snapVec

/-- Lookup in a Go map built by inserting the given key/value pairs in list
order: the last insert for a key wins. -/
def mapLookup (entries : List (ℚ × ℚ)) (t : ℚ) : Option ℚ :=
  (entries.reverse.find? (fun e => e.1 == t)).map Prod.snd

/-- The `(snapped timestamp, value)` insert sequence that `addVectors` feeds
into `reqMap` / `usedMap`: points with zero raw timestamp are skipped, all
others are snapped. -/
def vecEntries (l : List Vector) : List (ℚ × ℚ) :=
  (l.filter (fun v => v.timestamp != 0)).map (fun v => (snapTs v.timestamp, v.value))

/-- The unsorted `timestamps` slice `addVectors` builds: every snapped `req`
timestamp in order (duplicates kept), then every snapped `used` timestamp
that is not a key of `reqMap` (duplicates kept: the membership test is only
against `reqMap`, never against the timestamps already collected from
`used`). -/
def mergeKeys (req used : List Vector) : List ℚ :=
  let reqTs := (vecEntries req).map Prod.fst
  reqTs ++ ((vecEntries used).map Prod.fst).filter (fun t => decide (t ∉ reqTs))

/-- The output point `addVectors` builds for one entry `t` of the sorted
timestamp list: value is the sum of the `reqMap` and `usedMap` entries at
`t`, or the one that exists (the Go `Vector` zero value, 0, if neither). -/
def mergePoint (req used : List Vector) (t : ℚ) : Vector :=
  match mapLookup (vecEntries req) t, mapLookup (vecEntries used) t with
  | some rv, some uv => { timestamp := t, value := rv + uv }
  | some rv, none => { timestamp := t, value := rv }
  | none, some uv => { timestamp := t, value := uv }
  | none, none => { timestamp := t, value := 0 }

/-- `addVectors` from `aggregations.go`: merge two series point-wise after
snapping timestamps to the 10-second grid.  If either input is empty the
other is returned with its non-zero timestamps snapped in place.  Otherwise
both inputs are loaded into maps keyed by snapped timestamp (skipping zero
raw timestamps; later duplicates overwrite earlier ones), the collected
timestamp list is sorted (`sort.Float64s`, modelled by insertion sort:
sorted output on `ℚ` is unique), and one output point is built per
timestamp list entry. -/
def addVectors (req used : List Vector) : List Vector :=
  if req = [] then snapList used
  else if used = [] then snapList req
  else (List.insertionSort (· ≤ ·) (mergeKeys req used)).map (mergePoint req used)

/-- `totalVector` from `aggregations.go`: sum of the values of a series. -/
def totalVector (vectors : List Vector) : ℚ :=
  vectors.foldl (fun total v => total + v.value) 0

/-- The normalized (snapped) timestamps of a series, in order. -/
def seriesTs (l : List Vector) : List ℚ :=
  l.map (fun v => snapTs v.timestamp)

/-- The value a series carries at a normalized timestamp `t`: the value of
its first point whose snapped timestamp is `t` (the unique such point when
the series' snapped timestamps are pairwise distinct). -/
def valueAt (l : List Vector) (t : ℚ) : Option ℚ :=
  (l.find? (fun v => snapTs v.timestamp == t)).map Vector.value

/-- `cloud.Node` as consumed here: the four price strings are modelled by
their `strconv.ParseFloat` outcome, and `IsSpot()` by a flag. -/
structure NodeData where
  vcpuCost : Option ℚ
  ramCost : Option ℚ
  gpuCost : Option ℚ
  storageCost : Option ℚ
  isSpot : Bool
deriving DecidableEq, Repr

/-- The custom pricing configuration returned by the provider's
`GetConfig`; price strings modelled by their parse outcome. -/
structure CustomPricing where
  cpu : Option ℚ
  ram : Option ℚ
  gpu : Option ℚ
  storage : Option ℚ
  spotCPU : Option ℚ
  spotRAM : Option ℚ
  spotGPU : Option ℚ
deriving DecidableEq, Repr

/-- The bound volume of a volume claim (`pvcData.Volume`): its `Cost`
string modelled by its parse outcome. -/
structure PVData where
  cost : Option ℚ
deriving DecidableEq, Repr

/-- One attached volume-claim record (`PVCData`). -/
structure PVCData where
  volume : Option PVData
  values : List Vector
  claim : String
  volumeName : String
deriving DecidableEq, Repr

/-- `CostData`: one container's cost record.  `Namespace` is renamed
`namespaceName` (Lean keyword); labels are an association list with Go map
lookup semantics (last insert wins). -/
structure CostData where
  clusterID : String
  namespaceName : String
  podName : String
  name : String
  nodeName : String
  labels : List (String × String)
  services : List String
  deployments : List String
  nodeData : Option NodeData
  cpuAllocation : List Vector
  ramAllocation : List Vector
  gpuReq : List Vector
  pvcData : List PVCData
deriving DecidableEq, Repr

/-- The slice of the cloud provider visible to this code: `GetConfig`
(`none` = error) and the `CustomPricesEnabled` flag. -/
structure Provider where
  config : Option CustomPricing
  customPricesEnabled : Bool
deriving DecidableEq, Repr

/-- Lookup in a Go map with string keys built by inserting the listed
pairs in order (last insert wins). -/
def strLookup {β : Type} (entries : List (String × β)) (k : String) : Option β :=
  (entries.reverse.find? (fun e => e.1 == k)).map Prod.snd

/-- `SharedResourceInfo` from `aggregations.go`: namespace set and label
selectors, both as lists with set/map semantics. -/
structure SharedResourceInfo where
  shareResources : Bool
  sharedNamespace : List String
  labelSelectors : List (String × String)
deriving DecidableEq, Repr

/-- `IsSharedResource`: the record matches if its namespace is in the
shared set or any configured (label, value) pair matches its labels. -/
def isSharedResource (s : SharedResourceInfo) (costDatum : CostData) : Bool :=
  s.sharedNamespace.contains costDatum.namespaceName ||
    s.labelSelectors.any (fun sel =>
      match strLookup costDatum.labels sel.1 with
      | some v => v == sel.2
      | none => false)

/-- `NewSharedResourceInfo`: collects the namespaces (always adding
`kube-system`) and zips label names with label values.  (Go indexes
`labelvalues[i]` while ranging over `labelnames` and would panic on a
shorter value list; both callers validate equal lengths first, so the
truncating zip is only reached on equal lengths.) -/
def NewSharedResourceInfo (shareResources : Bool) (sharedNamespaces labelnames labelvalues : List String) : SharedResourceInfo :=
  { shareResources := shareResources
    sharedNamespace := sharedNamespaces ++ ["kube-system"]
    labelSelectors := labelnames.zip labelvalues }

/-- `getPriceVectors` from `aggregations.go`.  The very first statements
dereference `costDatum.NodeData` with no nil check, so a record with nil
node data panics: modelled by `none`.  Custom prices replace the node's
strings only when the provider has them enabled and `GetConfig` succeeded
(spot set if the node is spot); the storage override inside the PVC loop,
as in the source, checks only the enabled flag.  Every price parse failure
degrades to 0.  Cost samples snap timestamps to the 10-second grid with no
zero-timestamp check. -/
def getPriceVectors (cp : Provider) (costDatum : CostData) (discount idleCoefficient : ℚ) :
    Option (List Vector × List Vector × List Vector × List (List Vector)) :=
  match costDatum.nodeData with
  | none => none
  | some node =>
    let defaultStrs := (node.vcpuCost, node.ramCost, node.gpuCost, node.storageCost)
    let priceStrs :=
      match cp.config with
      | none => defaultStrs
      | some customPricing =>
        if cp.customPricesEnabled then
          if node.isSpot then
            (customPricing.spotCPU, customPricing.spotRAM, customPricing.spotGPU, customPricing.storage)
          else
            (customPricing.cpu, customPricing.ram, customPricing.gpu, customPricing.storage)
        else defaultStrs
    let cpuCost := priceStrs.1.getD 0
    let ramCost := priceStrs.2.1.getD 0
    let gpuCost := priceStrs.2.2.1.getD 0
    let pvCost := priceStrs.2.2.2.getD 0
    let cpuv := costDatum.cpuAllocation.map (fun val =>
      { timestamp := snapTs val.timestamp
        value := val.value * cpuCost * (1 - discount) * 1 / idleCoefficient })
    let ramv := costDatum.ramAllocation.map (fun val =>
      { timestamp := snapTs val.timestamp
        value := val.value / 1024 / 1024 / 1024 * ramCost * (1 - discount) * 1 / idleCoefficient })
    let gpuv := costDatum.gpuReq.map (fun val =>
      { timestamp := snapTs val.timestamp
        value := val.value * gpuCost * (1 - discount) * 1 / idleCoefficient })
    let pvvs := costDatum.pvcData.filterMap (fun pvcData =>
      match pvcData.volume with
      | none => none
      | some volume =>
        let cost := if cp.customPricesEnabled then pvCost else volume.cost.getD 0
        some (pvcData.values.map (fun val =>
          { timestamp := snapTs val.timestamp
            value := val.value / 1024 / 1024 / 1024 * cost * (1 - discount) * 1 / idleCoefficient })))
    some (cpuv, ramv, gpuv, pvvs)

/-- Total of all four price-vector categories of one record, as summed by
both `ComputeIdleCoefficient` and the shared-resource branch of
`AggregateCostModel`. -/
def priceVectorsTotal (pv : List Vector × List Vector × List Vector × List (List Vector)) : ℚ :=
  totalVector pv.1 + totalVector pv.2.1 + totalVector pv.2.2.1 +
    pv.2.2.2.foldl (fun s l => s + totalVector l) 0

/-- `Aggregation` from `aggregations.go` (scalar fields default to Go zero
values). -/
structure Aggregation where
  aggregator : String := ""
  aggregatorSubField : String := ""
  environment : String := ""
  cluster : String := ""
  cpuAllocation : List Vector := []
  cpuCostVector : List Vector := []
  ramAllocation : List Vector := []
  ramCostVector : List Vector := []
  pvCostVector : List Vector := []
  gpuAllocation : List Vector := []
  gpuCostVector : List Vector := []
  cpuCost : ℚ := 0
  ramCost : ℚ := 0
  gpuCost : ℚ := 0
  pvCost : ℚ := 0
  networkCost : ℚ := 0
  sharedCost : ℚ := 0
  totalCost : ℚ := 0
deriving DecidableEq, Repr

/-- The in-place effect of one `mergeVectors` call on the processed
record: `addVectors` snaps every non-zero timestamp of the record's
CPU/RAM/GPU allocation slices in place (values and all other fields,
including the PVC data, are untouched; the PVC cost vectors are built
fresh by `getPriceVectors`). -/
def allocationsSnapped (r : CostData) : CostData :=
  { r with
    cpuAllocation := snapList r.cpuAllocation
    ramAllocation := snapList r.ramAllocation
    gpuReq := snapList r.gpuReq }

/-- `mergeVectors` from `aggregations.go`: merge the record's allocation
series into the group (which snaps the record's slices in place), then
merge the record's price vectors into the group's cost vectors.
`getPriceVectors` runs after the in-place snapping, so it is applied to
the snapped record; the returned pair is (updated group, post-call record
contents).  The PV loop passes the accumulated vector as `req` and the new
one as `used`, as in the source. -/
def mergeVectors (cp : Provider) (costDatum : CostData) (aggregation : Aggregation) (discount idleCoefficient : ℚ) :
    Option (Aggregation × CostData) :=
  let agg1 := { aggregation with
    cpuAllocation := addVectors costDatum.cpuAllocation aggregation.cpuAllocation
    ramAllocation := addVectors costDatum.ramAllocation aggregation.ramAllocation
    gpuAllocation := addVectors costDatum.gpuReq aggregation.gpuAllocation }
  let costDatum1 := allocationsSnapped costDatum
  match getPriceVectors cp costDatum1 discount idleCoefficient with
  | none => none
  | some (cpuv, ramv, gpuv, pvvs) =>
    some ({ agg1 with
      cpuCostVector := addVectors cpuv agg1.cpuCostVector
      ramCostVector := addVectors ramv agg1.ramCostVector
      gpuCostVector := addVectors gpuv agg1.gpuCostVector
      pvCostVector := pvvs.foldl (fun acc vectorList => addVectors acc vectorList) agg1.pvCostVector },
      costDatum1)

/-- First (= only, keys are unique by construction) binding of a group key
in the aggregation map, modelled as an association list in insertion
order. -/
def aggLookup (m : List (String × Aggregation)) (k : String) : Option Aggregation :=
  (m.find? (fun e => e.1 == k)).map Prod.snd

/-- Replace the binding of an existing group key. -/
def aggUpdate (m : List (String × Aggregation)) (k : String) (a : Aggregation) : List (String × Aggregation) :=
  m.map (fun e => if e.1 == k then (e.1, a) else e)

/-- `aggregateDatum` from `aggregations.go`: create the group on first
contribution (capturing field/subfield/key/cluster), then `mergeVectors`
the record into it.  Also returns the post-call record contents. -/
def aggregateDatum (cp : Provider) (aggregations : List (String × Aggregation)) (costDatum : CostData)
    (field subfield key : String) (discount idleCoefficient : ℚ) :
    Option (List (String × Aggregation) × CostData) :=
  let existing := aggLookup aggregations key
  let agg0 : Aggregation :=
    match existing with
    | some a => a
    | none =>
      { aggregator := field
        aggregatorSubField := subfield
        environment := key
        cluster := costDatum.clusterID }
  let aggregations1 :=
    match existing with
    | some _ => aggregations
    | none => aggregations ++ [(key, agg0)]
  match mergeVectors cp costDatum agg0 discount idleCoefficient with
  | none => none
  | some (agg1, costDatum1) => some (aggUpdate aggregations1 key agg1, costDatum1)

/-- The group key `AggregateCostModel` resolves for a record, by field:
`cluster`/`namespace` always resolve; `service`/`deployment` resolve to
the first list entry if any; `label` resolves to the value of the label
named by the subfield if present; any other field resolves nothing and
the record is silently dropped. -/
def resolveKey (field subfield : String) (costDatum : CostData) : Option String :=
  if field = "cluster" then some costDatum.clusterID
  else if field = "namespace" then some costDatum.namespaceName
  else if field = "service" then
    match costDatum.services with
    | [] => none
    | svc :: _ => some svc
  else if field = "deployment" then
    match costDatum.deployments with
    | [] => none
    | dep :: _ => some dep
  else if field = "label" then strLookup costDatum.labels subfield
  else none

/-- Whether the first loop of `AggregateCostModel` routes a record to the
shared pool: `sr != nil && sr.ShareResources && sr.IsSharedResource(...)`. -/
def routedToShared (sr : Option SharedResourceInfo) (costDatum : CostData) : Bool :=
  match sr with
  | some s => s.shareResources && isSharedResource s costDatum
  | none => false

/-- State of `AggregateCostModel`'s first loop: the group map, the running
shared pool, and the post-call contents of the records processed so far. -/
structure AggState where
  aggregations : List (String × Aggregation)
  sharedResourceCost : ℚ
  recordsOut : List CostData
deriving DecidableEq, Repr

/-- One iteration of `AggregateCostModel`'s first loop over the cost
records. -/
def aggregateStep (cp : Provider) (field subfield : String) (discount idleCoefficient : ℚ)
    (sr : Option SharedResourceInfo) (st : AggState) (costDatum : CostData) : Option AggState :=
  if routedToShared sr costDatum then
    match getPriceVectors cp costDatum discount idleCoefficient with
    | none => none
    | some pv =>
      some { st with
        sharedResourceCost := st.sharedResourceCost + priceVectorsTotal pv
        recordsOut := st.recordsOut ++ [costDatum] }
  else
    match resolveKey field subfield costDatum with
    | none => some { st with recordsOut := st.recordsOut ++ [costDatum] }
    | some key =>
      match aggregateDatum cp st.aggregations costDatum field subfield key discount idleCoefficient with
      | none => none
      | some (aggs1, costDatum1) =>
        some { st with aggregations := aggs1, recordsOut := st.recordsOut ++ [costDatum1] }

/-- The first loop of `AggregateCostModel` over a record list (the Go map
is modelled as a list of records; the final per-group pass is applied
uniformly, so map iteration order does not affect any claim proved here). -/
def aggregateLoop (cp : Provider) (costData : List CostData) (field subfield : String)
    (discount idleCoefficient : ℚ) (sr : Option SharedResourceInfo) : Option AggState :=
  costData.foldl
    (fun acc costDatum => acc.bind (fun st => aggregateStep cp field subfield discount idleCoefficient sr st costDatum))
    (some { aggregations := [], sharedResourceCost := 0, recordsOut := [] })

/-- The second loop of `AggregateCostModel`, for one group: fill the
scalar totals, the flat shared slice `sharedResourceCost / n` (`n` = number
of groups; the loop body only runs when at least one group exists), the
total, and clear the cost series unless time series were requested. -/
def finalizeAggregation (sharedResourceCost : ℚ) (n : ℕ) (timeSeries : Bool) (agg : Aggregation) : Aggregation :=
  let cpuCost := totalVector agg.cpuCostVector
  let ramCost := totalVector agg.ramCostVector
  let gpuCost := totalVector agg.gpuCostVector
  let pvCost := totalVector agg.pvCostVector
  let sharedCost := sharedResourceCost / (n : ℚ)
  let agg1 := { agg with
    cpuCost := cpuCost
    ramCost := ramCost
    gpuCost := gpuCost
    pvCost := pvCost
    sharedCost := sharedCost
    totalCost := cpuCost + ramCost + gpuCost + pvCost + sharedCost }
  if timeSeries then agg1
  else { agg1 with cpuCostVector := [], ramCostVector := [], pvCostVector := [], gpuCostVector := [] }

/-- `AggregateCostModel` from `aggregations.go`: run the record loop, then
finalize every group.  Returns `none` on the nil-node-data panic inside
`getPriceVectors`; otherwise the group map and the post-call contents of
the input records. -/
def AggregateCostModel (cp : Provider) (costData : List CostData) (field subfield : String)
    (timeSeries : Bool) (discount idleCoefficient : ℚ) (sr : Option SharedResourceInfo) :
    Option (List (String × Aggregation) × List CostData) :=
  match aggregateLoop cp costData field subfield discount idleCoefficient sr with
  | none => none
  | some st =>
    some (st.aggregations.map (fun e =>
      (e.1, finalizeAggregation st.sharedResourceCost st.aggregations.length timeSeries e.2)),
      st.recordsOut)

/-- The post-call contents of one input record after `AggregateCostModel`:
a record routed to the shared pool or contributing to no group is
untouched; a record merged into a group has its allocation slices snapped
in place by `addVectors`. -/
def recordPostState (field subfield : String) (sr : Option SharedResourceInfo) (r : CostData) : CostData :=
  if routedToShared sr r then r
  else
    match resolveKey field subfield r with
    | none => r
    | some _ => allocationsSnapped r

/-- `ComputeIdleCoefficient` from `aggregations.go`.  The external
`ClusterCosts` call and the two parses are abstracted by their outcomes:
`windowHoursParsed` is the parsed window duration in hours (`none` = parse
error) and `clusterTotalParsed` the parse of the cluster total's first
value (`none` = parse error; `ClusterCosts` transport errors follow the
same `(0, error)` shape).  Result is `(value, error?)`; `none` models the
nil-node-data panic inside `getPriceVectors`.  A parsed total of zero
returns `(0, no error)`. -/
def ComputeIdleCoefficient (costData : List CostData) (cp : Provider) (discount : ℚ)
    (windowHoursParsed : Option ℚ) (clusterTotalParsed : Option ℚ) : Option (ℚ × Bool) :=
  match windowHoursParsed with
  | none => some (0, true)
  | some windowHours =>
    match clusterTotalParsed with
    | none => some (0, true)
    | some totalClusterCost =>
      if totalClusterCost = 0 then some (0, false)
      else
        let totalClusterCostOverWindow := totalClusterCost / 730 * windowHours * (1 - discount)
        match costData.foldl
          (fun acc costDatum =>
            acc.bind (fun t => (getPriceVectors cp costDatum discount 1).map
              (fun pv => t + priceVectorsTotal pv)))
          (some 0) with
        | none => none
        | some totalContainerCost => some (totalContainerCost / totalClusterCostOverWindow, false)

/-- The idle-coefficient selection of the HTTP handler
`(*Accesses).AggregateCostModel`: `idleCoefficient := 1.0`, overwritten by
the value `ComputeIdleCoefficient` returns whenever `allocateIdle=true` —
including a returned 0, and including the error case, in which the handler
writes an error response but does not return.  `none` propagates the
panic. -/
def handlerIdleCoefficient (allocateIdle : Bool) (computed : Option (ℚ × Bool)) : Option ℚ :=
  if allocateIdle then computed.map Prod.fst else some 1

/-- `getKeyFromLabelStrings` from `recordPrices`: join the identifying
label values with commas. -/
def getKeyFromLabelStrings (labels : List String) : String :=
  String.intercalate "," labels

/-- The exported gauge series that currently exist, as (metric name,
joined label key) pairs; `WithLabelValues(...).Set(...)` upserts,
`DeleteLabelValues` removes. -/
def seriesUpsert (s : List (String × String)) (e : String × String) : List (String × String) :=
  if s.contains e then s else s ++ [e]

def seriesDelete (s : List (String × String)) (e : String × String) : List (String × String) :=
  s.filter (fun x => x != e)

/-- Insert/overwrite in a seen-tracking map (Go map modelled as an
association list with unique keys). -/
def seenInsert (m : List (String × Bool)) (k : String) (b : Bool) : List (String × Bool) :=
  if m.any (fun e => e.1 == k) then m.map (fun e => if e.1 == k then (e.1, b) else e)
  else m ++ [(k, b)]

def seenDelete (m : List (String × Bool)) (k : String) : List (String × Bool) :=
  m.filter (fun e => e.1 != k)

/-- The four node-price gauges written and swept per node key by
`recordPrices`. -/
def nodeMetrics : List String :=
  ["node_total_hourly_cost", "node_cpu_hourly_cost", "node_gpu_hourly_cost", "node_ram_hourly_cost"]

/-- The node part of one `recordPrices` data pass: for every record whose
node data is present (a nil one is skipped with a log, and stays in the
data set), upsert the four node gauges for the `nodeName,nodeName` key and
mark that key seen. -/
def nodeDataPass (data : List CostData) (st : List (String × Bool) × List (String × String)) :
    List (String × Bool) × List (String × String) :=
  data.foldl
    (fun st costs =>
      match costs.nodeData with
      | none => st
      | some _ =>
        let key := getKeyFromLabelStrings [costs.nodeName, costs.nodeName]
        (seenInsert st.1 key true, nodeMetrics.foldl (fun s m => seriesUpsert s (m, key)) st.2))
    st

/-- One sweep loop of `recordPrices` over a seen-tracking map, iterating
the entries present when the sweep starts (Go ranges over the live map;
each original key is visited once and only the visited key is mutated, so
the per-key effect is as modelled; a key re-inserted during iteration may
or may not be re-visited in Go — re-visiting is idempotent here).  For an
unseen key the exported series for every listed metric are deleted and the
entry is deleted — and then the loop's unconditional final statement
re-inserts the key with value `false`.  A seen key is just reset to
`false`. -/
def sweepSeen (metrics : List String) (st : List (String × Bool) × List (String × String)) :
    List (String × Bool) × List (String × String) :=
  st.1.foldl
    (fun acc e =>
      let m0 := if e.2 then acc.1 else seenDelete acc.1 e.1
      let s0 := if e.2 then acc.2 else metrics.foldl (fun s metric => seriesDelete s (metric, e.1)) acc.2
      (seenInsert m0 e.1 false, s0))
    st

/-- One full `recordPrices` cycle restricted to the node gauges and the
`nodeSeen` map: data pass, then sweep.  (The container, PV and PVC maps
follow the same textual pattern.) -/
def nodeCycle (data : List CostData) (st : List (String × Bool) × List (String × String)) :
    List (String × Bool) × List (String × String) :=
  sweepSeen nodeMetrics (nodeDataPass data st)

/-- The volume-claim loop of one `recordPrices` record iteration: for each
claim with a bound volume the code reads `pvc.Values[0]` with no length
check — an empty sampled series panics (`none`).  Otherwise it writes the
`pod_pvc_allocation` gauge and marks the claim key seen. -/
def processPVCList (namespaceName podName : String) (pvcs : List PVCData) :
    Option (List (String × String) × List String) :=
  pvcs.foldl
    (fun acc pvc =>
      acc.bind (fun state =>
        match pvc.volume with
        | none => some state
        | some _ =>
          match pvc.values with
          | [] => none
          | _ :: _ =>
            let key := getKeyFromLabelStrings [namespaceName, podName, pvc.claim, pvc.volumeName]
            some (state.1 ++ [("pod_pvc_allocation", key)], state.2 ++ [key])))
    (some ([], []))

/-- One record iteration of the `recordPrices` data pass (node guard, PVC
loop, node gauges): a record with nil node data is skipped without
failing; otherwise the PVC loop runs (and can panic on an empty `Values`
series), then the four node gauges are written.  Returns (gauge writes,
node keys seen, claim keys seen). -/
def recordPricesStep (costs : CostData) : Option (List (String × String) × List String × List String) :=
  match costs.nodeData with
  | none => some ([], [], [])
  | some _ =>
    match processPVCList costs.namespaceName costs.podName costs.pvcData with
    | none => none
    | some (pvcWrites, pvcSeenKeys) =>
      let nodeKey := getKeyFromLabelStrings [costs.nodeName, costs.nodeName]
      some (pvcWrites ++ nodeMetrics.map (fun m => (m, nodeKey)), [nodeKey], pvcSeenKeys)

/-- The storage-class parameter resolution of the `recordPrices` PV loop:
`parameters, ok := storageClassMap[className]` — a missing class is only
logged and the zero value (empty parameter map) is used. -/
def storageClassParams (storageClassMap : List (String × List (String × String))) (className : String) :
    List (String × String) :=
  ((storageClassMap.find? (fun e => e.1 == className)).map Prod.snd).getD []

/-- One PV iteration of the `recordPrices` PV loop: resolve the storage
class parameters (defaulting to empty), hand them with the PV to the
external `GetPVCost` (abstracted by `costParsed`), and write the
`pv_hourly_cost` gauge — total, no panic on a missing storage class. -/
def processPV (storageClassMap : List (String × List (String × String)))
    (pvName className : String) (costParsed : Option ℚ) :
    List (String × String) × ((String × String) × ℚ) :=
  let parameters := storageClassParams storageClassMap className
  (parameters, (("pv_hourly_cost", getKeyFromLabelStrings [pvName, pvName]), costParsed.getD 0))

/-- The query parameters of the HTTP handler
`(*Accesses).AggregateCostModel` that take part in this verification
(strings as parsed from the URL; the two boolean flags are the
`== "true"` comparisons). -/
structure AggregateRequest where
  window : String
  offset : String
  namespaceFilter : String
  cluster : String
  field : String
  subfield : String
  timeSeries : Bool
  allocateIdle : Bool
  sharedNamespaces : String
  sharedLabelNames : String
  sharedLabelValues : String
deriving DecidableEq, Repr

/-- The cache fingerprint `aggKey` built by the handler:
`fmt.Sprintf("aggregate:%s:%s:%s:%s:%s:%s:%t", window, offset, namespace,
cluster, field, subfield, timeSeries)`.  The idle-allocation flag and the
three shared-resource parameters are not part of it. -/
def aggKey (r : AggregateRequest) : String :=
  "aggregate:" ++ r.window ++ ":" ++ r.offset ++ ":" ++ r.namespaceFilter ++ ":" ++
    r.cluster ++ ":" ++ r.field ++ ":" ++ r.subfield ++ ":" ++
    (if r.timeSeries then "true" else "false")

/-- Go's `strings.Split(s, ",")` (for the non-empty separator used here),
written by structural recursion on the character list. -/
def splitCommaChars : List Char → List Char → List String
  | [], acc => [String.mk acc.reverse]
  | c :: rest, acc =>
    if c = ',' then String.mk acc.reverse :: splitCommaChars rest []
    else splitCommaChars rest (c :: acc)

def splitComma (s : String) : List String :=
  splitCommaChars s.data []

/-- The shared-resource configuration the handler builds from the request
(comma-splitting the non-empty parameters; the label name/value length
validation precedes this and is not claim-relevant here). -/
def handlerSharedInfo (r : AggregateRequest) : Option SharedResourceInfo :=
  let sn := if r.sharedNamespaces = "" then [] else splitComma r.sharedNamespaces
  let sln := if r.sharedLabelNames = "" then [] else splitComma r.sharedLabelNames
  let slv := if r.sharedLabelNames = "" then [] else splitComma r.sharedLabelValues
  if sn.length > 0 ∨ sln.length > 0 then some (NewSharedResourceInfo true sn sln slv) else none

/-- The aggregation result the handler computes for a request over a fixed
data snapshot, discount and idle coefficient: `AggregateCostModel` with
the request's field, subfield, time-series flag and shared-resource
configuration. -/
def handlerAggregate (r : AggregateRequest) (cp : Provider) (costData : List CostData)
    (discount idleCoefficient : ℚ) : Option (List (String × Aggregation) × List CostData) :=
  AggregateCostModel cp costData r.field r.subfield r.timeSeries discount idleCoefficient
    (handlerSharedInfo r)

/-- A provider with no custom pricing configuration. -/
def plainProvider : Provider :=
  { config := none, customPricesEnabled := false }

/-- Node data whose price strings all fail to parse. -/
def zeroNode : NodeData :=
  { vcpuCost := none, ramCost := none, gpuCost := none, storageCost := none, isSpot := false }

/-- A base cost record: all series empty, node data present. -/
def baseRecord : CostData :=
  { clusterID := "c1", namespaceName := "default", podName := "p1", name := "ctr"
    nodeName := "n1", labels := [], services := [], deployments := []
    nodeData := some zeroNode
    cpuAllocation := [], ramAllocation := [], gpuReq := [], pvcData := [] }

/-- A record with a nil node-price reference. -/
def nilNodeRecord : CostData :=
  { baseRecord with nodeData := none }

/-- Node data carrying a parsable CPU price of 0.05. -/
def c4Node : NodeData :=
  { zeroNode with vcpuCost := some (1 / 20) }

/-- A record with one CPU allocation sample of 2.0 at `t = 100` and the
0.05 CPU price. -/
def c4Record : CostData :=
  { baseRecord with
    nodeData := some c4Node
    cpuAllocation := [{ timestamp := 100, value := 2 }] }

/-- The group created when `baseRecord` is aggregated by namespace. -/
def c5Agg : Aggregation :=
  { aggregator := "namespace", aggregatorSubField := "", environment := "default", cluster := "c1" }

/-- The loop state after aggregating `baseRecord` by namespace. -/
def c5State : AggState :=
  { aggregations := [("default", c5Agg)], sharedResourceCost := 0, recordsOut := [baseRecord] }

/-- A volume claim with a bound volume but an empty sampled series. -/
def emptyValuesPVC : PVCData :=
  { volume := some { cost := some 1 }, values := [], claim := "claim1", volumeName := "vol1" }

/-- A record whose volume claim has an empty sampled series. -/
def emptyValuesRecord : CostData :=
  { baseRecord with pvcData := [emptyValuesPVC] }

/-- A record with a single CPU allocation point at raw timestamp 101. -/
def c8Record : CostData :=
  { baseRecord with cpuAllocation := [{ timestamp := 101, value := 1 }] }

/-- A record living in the namespace `shared-ns`. -/
def c7Record : CostData :=
  { baseRecord with namespaceName := "shared-ns" }

/-- An aggregation request with no shared-resource parameters and idle
allocation off. -/
def c7Req1 : AggregateRequest :=
  { window := "1d", offset := "", namespaceFilter := "", cluster := "", field := "namespace"
    subfield := "", timeSeries := false, allocateIdle := false, sharedNamespaces := ""
    sharedLabelNames := "", sharedLabelValues := "" }

/-- The same request with idle allocation on and a shared namespace — the
only parameters the fingerprint omits. -/
def c7Req2 : AggregateRequest :=
  { c7Req1 with allocateIdle := true, sharedNamespaces := "shared-ns" }

theorem mergePoint_timestamp (req used : List Vector) (t : ℚ) :
    (mergePoint req used t).timestamp = t := by
  unfold mergePoint
  cases mapLookup (vecEntries req) t <;> cases mapLookup (vecEntries used) t <;> rfl

theorem vecEntries_of_ne_zero {l : List Vector} (h : ∀ v ∈ l, v.timestamp ≠ 0) :
    vecEntries l = l.map (fun v => (snapTs v.timestamp, v.value)) := by
  unfold vecEntries
  rw [List.filter_eq_self.mpr]
  intro v hv
  simpa using h v hv

theorem keysOf_vecEntries {l : List Vector} (h : ∀ v ∈ l, v.timestamp ≠ 0) :
    (vecEntries l).map Prod.fst = seriesTs l := by
  rw [vecEntries_of_ne_zero h, List.map_map]
  rfl

theorem find?_reverse_of_nodup_key {α β : Type} [DecidableEq β] (f : α → β)
    (l : List α) (h : (l.map f).Nodup) (b : β) :
    l.reverse.find? (fun x => f x == b) = l.find? (fun x => f x == b) := by
  induction l with
  | nil => rfl
  | cons a l ih =>
    simp only [List.map_cons, List.nodup_cons] at h
    obtain ⟨ha, hl⟩ := h
    rw [List.reverse_cons, List.find?_append, ih hl]
    cases hfind : l.find? (fun x => f x == b) with
    | none =>
      simp [List.find?_cons, hfind]
    | some x =>
      have hxp : (f x == b) = true := List.find?_some (p := fun y => f y == b) hfind
      have hxm : x ∈ l := List.mem_of_find?_eq_some hfind
      have hpa : (f a == b) = false := by
        rw [beq_eq_false_iff_ne]
        intro hab
        exact ha (by rw [hab, ← eq_of_beq hxp]; exact List.mem_map_of_mem f hxm)
      simp [List.find?_cons, hfind, hpa]

theorem mapLookup_eq_valueAt {l : List Vector} (h0 : ∀ v ∈ l, v.timestamp ≠ 0)
    (hnd : (seriesTs l).Nodup) (t : ℚ) :
    mapLookup (vecEntries l) t = valueAt l t := by
  unfold mapLookup valueAt
  rw [vecEntries_of_ne_zero h0, ← List.map_reverse, List.find?_map]
  have hcomp :
      ((fun e : ℚ × ℚ => e.1 == t) ∘ fun v : Vector => (snapTs v.timestamp, v.value)) =
        fun v : Vector => snapTs v.timestamp == t := rfl
  rw [hcomp, find?_reverse_of_nodup_key (fun v : Vector => snapTs v.timestamp) l hnd t]
  cases l.find? (fun v : Vector => snapTs v.timestamp == t) <;> rfl

theorem mem_mergeKeys_iff {req used : List Vector}
    (hreq0 : ∀ v ∈ req, v.timestamp ≠ 0) (hused0 : ∀ v ∈ used, v.timestamp ≠ 0)
    (t : ℚ) :
    t ∈ mergeKeys req used ↔ t ∈ seriesTs req ∨ t ∈ seriesTs used := by
  unfold mergeKeys
  simp only [keysOf_vecEntries hreq0, keysOf_vecEntries hused0, List.mem_append,
    List.mem_filter, decide_eq_true_eq]
  tauto

theorem nodup_mergeKeys {req used : List Vector}
    (hreq0 : ∀ v ∈ req, v.timestamp ≠ 0) (hused0 : ∀ v ∈ used, v.timestamp ≠ 0)
    (hreqnd : (seriesTs req).Nodup) (husednd : (seriesTs used).Nodup) :
    (mergeKeys req used).Nodup := by
  unfold mergeKeys
  simp only [keysOf_vecEntries hreq0, keysOf_vecEntries hused0]
  rw [List.nodup_append]
  refine ⟨hreqnd, husednd.filter _, ?_⟩
  intro a ha hafil
  rcases List.mem_filter.mp hafil with ⟨_, hdec⟩
  exact (decide_eq_true_eq.mp hdec) ha

/-- C1 counterexample: the claim quantifies over every two non-empty series,
but (i) a point with zero raw timestamp is discarded by the merge, so no
output point exists for its normalized timestamp even though it is present
in an input, and (ii) two points of one input that snap to the same
timestamp yield two duplicated output points with the later point's value,
not one summed point. -/
theorem addVectors_merge_claim_fails :
    ((addVectors [{ timestamp := 0, value := 1 }] [{ timestamp := 10, value := 2 }]).map
        Vector.timestamp = [10]) ∧
    ((addVectors [{ timestamp := 101, value := 1 }, { timestamp := 99, value := 2 }]
        [{ timestamp := 500, value := 3 }]).map Vector.timestamp = [100, 100, 500]) := by
  have h10 : snapTs 10 = 10 := by norm_num [snapTs, goRound]
  have h101 : snapTs 101 = 100 := by norm_num [snapTs, goRound]
  have h99 : snapTs 99 = 100 := by norm_num [snapTs, goRound]
  have h500 : snapTs 500 = 500 := by norm_num [snapTs, goRound]
  constructor
  · simp [addVectors, mergeKeys, mergePoint, vecEntries, mapLookup, h10]
  · simp [addVectors, mergeKeys, mergePoint, vecEntries, mapLookup, h101, h99, h500]

/-- C1 (amended): for two non-empty series whose points all have non-zero
raw timestamps and whose normalized timestamps are pairwise distinct within
each input, `addVectors` returns exactly one point per distinct normalized
timestamp present in either input, sorted strictly ascending; the point's
value is the sum of the two inputs' values at that timestamp when it occurs
in both inputs, and the single input's value otherwise; in particular
merging `{t=101,v=1}` with `{t=99,v=0.5}` yields `{t=100,v=1.5}`. -/
theorem addVectors_merge_characterization (req used : List Vector)
    (hreqne : req ≠ []) (husedne : used ≠ [])
    (hreq0 : ∀ v ∈ req, v.timestamp ≠ 0) (hused0 : ∀ v ∈ used, v.timestamp ≠ 0)
    (hreqnd : (seriesTs req).Nodup) (husednd : (seriesTs used).Nodup) :
    ((addVectors req used).map Vector.timestamp).Sorted (· < ·) ∧
    (∀ t : ℚ, t ∈ (addVectors req used).map Vector.timestamp ↔
        (t ∈ seriesTs req ∨ t ∈ seriesTs used)) ∧
    (∀ p ∈ addVectors req used,
        match valueAt req p.timestamp, valueAt used p.timestamp with
        | some rv, some uv => p.value = rv + uv
        | some rv, none => p.value = rv
        | none, some uv => p.value = uv
        | none, none => False) ∧
    addVectors [{ timestamp := 101, value := 1 }] [{ timestamp := 99, value := 1/2 }] =
      [{ timestamp := 100, value := 3/2 }] := by
  have hexample : addVectors [{ timestamp := 101, value := 1 }]
      [{ timestamp := 99, value := 1/2 }] = [{ timestamp := 100, value := 3/2 }] := by
    have h101 : snapTs 101 = 100 := by norm_num [snapTs, goRound]
    have h99 : snapTs 99 = 100 := by norm_num [snapTs, goRound]
    simp [addVectors, mergeKeys, mergePoint, vecEntries, mapLookup, h101, h99]
    norm_num
  have hout : addVectors req used =
      (List.insertionSort (· ≤ ·) (mergeKeys req used)).map (mergePoint req used) := by
    unfold addVectors
    rw [if_neg hreqne, if_neg husedne]
  have hperm := List.perm_insertionSort (· ≤ ·) (mergeKeys req used)
  have hmapts : (addVectors req used).map Vector.timestamp =
      List.insertionSort (· ≤ ·) (mergeKeys req used) := by
    rw [hout, List.map_map]
    have hcomp : (Vector.timestamp ∘ mergePoint req used) = id :=
      funext (mergePoint_timestamp req used)
    rw [hcomp, List.map_id]
  refine ⟨?_, ?_, ?_, hexample⟩
  · rw [hmapts]
    have hsorted := List.sorted_insertionSort (· ≤ ·) (mergeKeys req used)
    have hnd : (List.insertionSort (· ≤ ·) (mergeKeys req used)).Nodup :=
      hperm.nodup_iff.mpr (nodup_mergeKeys hreq0 hused0 hreqnd husednd)
    exact hsorted.lt_of_le hnd
  · intro t
    rw [hmapts, hperm.mem_iff]
    exact mem_mergeKeys_iff hreq0 hused0 t
  · intro p hp
    rw [hout] at hp
    obtain ⟨t, ht, rfl⟩ := List.mem_map.mp hp
    have htmem : t ∈ mergeKeys req used := hperm.mem_iff.mp ht
    rw [mergePoint_timestamp req used t]
    cases hr : valueAt req t with
    | some rv =>
      cases hu : valueAt used t with
      | some uv =>
        simp only [mergePoint, mapLookup_eq_valueAt hreq0 hreqnd,
          mapLookup_eq_valueAt hused0 husednd, hr, hu]
      | none =>
        simp only [mergePoint, mapLookup_eq_valueAt hreq0 hreqnd,
          mapLookup_eq_valueAt hused0 husednd, hr, hu]
    | none =>
      cases hu : valueAt used t with
      | some uv =>
        simp only [mergePoint, mapLookup_eq_valueAt hreq0 hreqnd,
          mapLookup_eq_valueAt hused0 husednd, hr, hu]
      | none =>
        exfalso
        have hno : ∀ (l : List Vector), valueAt l t = none → t ∉ seriesTs l := by
          intro l hnone hmem
          obtain ⟨v, hv, hvt⟩ := List.mem_map.mp hmem
          have hfind := Option.map_eq_none'.mp hnone
          exact (List.find?_eq_none.mp hfind v hv) (by simp [hvt])
        rcases (mem_mergeKeys_iff hreq0 hused0 t).mp htmem with h | h
        · exact hno req hr h
        · exact hno used hu h

/-- C1 witness: the merge characterization applied to the two singleton
series of the spec's example, whose points have non-zero raw timestamps
and trivially distinct normalized timestamps. -/
theorem addVectors_merge_characterization_witness :
    addVectors [{ timestamp := 101, value := 1 }] [{ timestamp := 99, value := 1/2 }] =
      [{ timestamp := 100, value := 3/2 }] :=
  (addVectors_merge_characterization
    [{ timestamp := 101, value := 1 }] [{ timestamp := 99, value := 1/2 }]
    (by simp) (by simp)
    (by intro v hv; rw [List.mem_singleton] at hv; subst hv; norm_num)
    (by intro v hv; rw [List.mem_singleton] at hv; subst hv; norm_num)
    (by simp [seriesTs]) (by simp [seriesTs])).2.2.2

/-- C10 counterexample: the claim says zero-valued timestamps are discarded
from either input and never appear in any merge output, but in the
empty-other-input path `addVectors` only skips zero-timestamp points when
snapping and returns them unchanged: merging `[{t=0,v=5}]` with `[]` yields
`[{t=0,v=5}]`, a zero timestamp in the output. -/
theorem addVectors_keeps_zero_timestamp_on_empty_input :
    addVectors [{ timestamp := 0, value := 5 }] [] = [{ timestamp := 0, value := 5 }] ∧
    (0 : ℚ) ∈ (addVectors [{ timestamp := 0, value := 5 }] []).map Vector.timestamp := by
  constructor
  · rfl
  · decide

/-- C10 (amended): for every series `a`, `merge(a, [])` and `merge([], a)`
both return `a` with every non-zero timestamp snapped to the nearest
multiple of 10 and every zero-timestamp point retained unchanged (zero raw
timestamps are discarded only on the path where both inputs are
non-empty). -/
theorem addVectors_empty_identity (a : List Vector) :
    addVectors a [] = snapList a ∧ addVectors [] a = snapList a := by
  refine ⟨?_, ?_⟩
  · by_cases h : a = []
    · subst h; rfl
    · unfold addVectors
      rw [if_neg h, if_pos rfl]
  · unfold addVectors
    rw [if_pos rfl]

/-- C2: the claim (and the spec invariant) says every consumer that needs
price data skips a record with a nil node-price reference without failing;
but `getPriceVectors` dereferences `costDatum.NodeData` with no nil check,
so `AggregateCostModel` and `ComputeIdleCoefficient` panic on such a
record (modelled by `none`), while the reconciler's `recordPrices` is the
one consumer that does skip it (and the record stays in the data set). -/
theorem nil_node_record_panics_in_aggregation :
    getPriceVectors plainProvider nilNodeRecord 0 1 = none ∧
    AggregateCostModel plainProvider [nilNodeRecord] "namespace" "" false 0 1 none = none ∧
    ComputeIdleCoefficient [nilNodeRecord] plainProvider 0 (some 24) (some 100) = none ∧
    recordPricesStep nilNodeRecord = some ([], [], []) := by
  refine ⟨rfl, rfl, ?_, rfl⟩
  have h : (100 : ℚ) = 0 ↔ False := by norm_num
  simp [ComputeIdleCoefficient, h, getPriceVectors, nilNodeRecord, baseRecord]

/-- C3: on a cluster total that parses to zero, `ComputeIdleCoefficient`
returns `(0, no error)` as claimed — but the handler then proceeds with
`idleCoefficient = 0`, not 1.0: the initial 1.0 is overwritten by the
returned value whenever `allocateIdle=true` (also in the error case, where
the handler writes an error response and keeps going). -/
theorem idle_coefficient_zero_total :
    ComputeIdleCoefficient [] plainProvider 0 (some 24) (some 0) = some (0, false) ∧
    handlerIdleCoefficient true (some (0, false)) = some 0 ∧
    handlerIdleCoefficient true (some (0, true)) = some 0 ∧
    handlerIdleCoefficient false (some (0, false)) = some 1 := by
  exact ⟨rfl, rfl, rfl, rfl⟩

/-- C6: one node key observed in cycle 1 and absent in cycle 2.  After
cycle 1 the four node series exist; after cycle 2's sweep they are removed
(the claimed one-cycle eviction of the exported series holds) — but the
tracking entry is not removed: the sweep deletes it and then its
unconditional trailing assignment re-inserts it with flag `false`, so the
key stays in the tracking map forever. -/
theorem reconciler_sweep_reinserts_deleted_entry :
    nodeCycle [baseRecord] ([], []) =
      ([("n1,n1", false)],
        [("node_total_hourly_cost", "n1,n1"), ("node_cpu_hourly_cost", "n1,n1"),
          ("node_gpu_hourly_cost", "n1,n1"), ("node_ram_hourly_cost", "n1,n1")]) ∧
    nodeCycle [] (nodeCycle [baseRecord] ([], [])) = ([("n1,n1", false)], []) := by
  exact ⟨rfl, rfl⟩

/-- C9: the reconciler does panic on one kind of missing optional data:
a volume claim with a bound volume whose sampled `Values` series is empty
is indexed at `[0]` with no length check (modelled by `none`), while the
storage-class path behaves as claimed: a PV whose storage class cannot be
resolved gets empty parameters and is still processed. -/
theorem reconciler_empty_pvc_values_panics :
    recordPricesStep emptyValuesRecord = none ∧
    processPVCList "default" "p1" [emptyValuesPVC] = none ∧
    storageClassParams [] "missing-class" = [] ∧
    processPV [] "pv1" "missing-class" (some (1 / 2)) =
      ([], (("pv_hourly_cost", "pv1,pv1"), 1 / 2)) := by
  exact ⟨rfl, rfl, rfl, rfl⟩

/-- C4: with the record's node pricing in effect (custom pricing
disabled) and idle coefficient `k > 0`, every cost sample produced by
`getPriceVectors` is `allocationValue * u * p * (1 - d) / k` with `u = 1`
for CPU and GPU and `u = 1/1024³` for RAM and storage, at the snapped
timestamp; a price string that fails to parse (`getD 0`) makes every
sample of that category zero instead of aborting. -/
theorem getPriceVectors_cost_formula (cp : Provider) (r : CostData) (node : NodeData)
    (d k : ℚ) (hnode : r.nodeData = some node) (hcustom : cp.customPricesEnabled = false)
    (hk : 0 < k) :
    getPriceVectors cp r d k = some
      (r.cpuAllocation.map (fun v =>
        { timestamp := snapTs v.timestamp
          value := v.value * 1 * (node.vcpuCost.getD 0) * (1 - d) / k }),
        r.ramAllocation.map (fun v =>
        { timestamp := snapTs v.timestamp
          value := v.value * (1 / 1024 ^ 3) * (node.ramCost.getD 0) * (1 - d) / k }),
        r.gpuReq.map (fun v =>
        { timestamp := snapTs v.timestamp
          value := v.value * 1 * (node.gpuCost.getD 0) * (1 - d) / k }),
        r.pvcData.filterMap (fun pvc => pvc.volume.map (fun vol =>
          pvc.values.map (fun v =>
            { timestamp := snapTs v.timestamp
              value := v.value * (1 / 1024 ^ 3) * (vol.cost.getD 0) * (1 - d) / k })))) ∧
    (node.vcpuCost = none →
      ∀ q, getPriceVectors cp r d k = some q → ∀ p ∈ q.1, p.value = 0) := by
  have hmain : getPriceVectors cp r d k = some
      (r.cpuAllocation.map (fun v =>
        { timestamp := snapTs v.timestamp
          value := v.value * 1 * (node.vcpuCost.getD 0) * (1 - d) / k }),
        r.ramAllocation.map (fun v =>
        { timestamp := snapTs v.timestamp
          value := v.value * (1 / 1024 ^ 3) * (node.ramCost.getD 0) * (1 - d) / k }),
        r.gpuReq.map (fun v =>
        { timestamp := snapTs v.timestamp
          value := v.value * 1 * (node.gpuCost.getD 0) * (1 - d) / k }),
        r.pvcData.filterMap (fun pvc => pvc.volume.map (fun vol =>
          pvc.values.map (fun v =>
            { timestamp := snapTs v.timestamp
              value := v.value * (1 / 1024 ^ 3) * (vol.cost.getD 0) * (1 - d) / k })))) := by
    have hcpu : ∀ c : ℚ, r.cpuAllocation.map (fun val : Vector =>
        ({ timestamp := snapTs val.timestamp
           value := val.value * c * (1 - d) * 1 / k } : Vector)) =
        r.cpuAllocation.map (fun v : Vector =>
        { timestamp := snapTs v.timestamp, value := v.value * 1 * c * (1 - d) / k }) := by
      intro c
      refine List.map_congr_left (fun v _ => ?_)
      congr 1
      ring
    have hram : ∀ c : ℚ, r.ramAllocation.map (fun val : Vector =>
        ({ timestamp := snapTs val.timestamp
           value := val.value / 1024 / 1024 / 1024 * c * (1 - d) * 1 / k } : Vector)) =
        r.ramAllocation.map (fun v : Vector =>
        { timestamp := snapTs v.timestamp, value := v.value * (1 / 1024 ^ 3) * c * (1 - d) / k }) := by
      intro c
      refine List.map_congr_left (fun v _ => ?_)
      congr 1
      ring
    have hgpu : ∀ c : ℚ, r.gpuReq.map (fun val : Vector =>
        ({ timestamp := snapTs val.timestamp
           value := val.value * c * (1 - d) * 1 / k } : Vector)) =
        r.gpuReq.map (fun v : Vector =>
        { timestamp := snapTs v.timestamp, value := v.value * 1 * c * (1 - d) / k }) := by
      intro c
      refine List.map_congr_left (fun v _ => ?_)
      congr 1
      ring
    have hpv : r.pvcData.filterMap (fun pvcData =>
        match pvcData.volume with
        | none => none
        | some volume =>
          some (pvcData.values.map (fun val : Vector =>
            ({ timestamp := snapTs val.timestamp
               value := val.value / 1024 / 1024 / 1024 * (volume.cost.getD 0) * (1 - d) * 1 / k } : Vector)))) =
        r.pvcData.filterMap (fun pvc => pvc.volume.map (fun vol =>
          pvc.values.map (fun v : Vector =>
            { timestamp := snapTs v.timestamp
              value := v.value * (1 / 1024 ^ 3) * (vol.cost.getD 0) * (1 - d) / k }))) := by
      refine List.filterMap_congr (fun pvc _ => ?_)
      cases pvc.volume with
      | none => rfl
      | some vol =>
        simp only [Option.map_some']
        refine congrArg some (List.map_congr_left (fun v _ => ?_))
        congr 1
        ring
    cases hcfg : cp.config with
    | none =>
      simp only [getPriceVectors, hnode, hcfg, hcustom, Bool.false_eq_true, if_false]
      rw [hcpu, hram, hgpu, hpv]
    | some cfg =>
      simp only [getPriceVectors, hnode, hcfg, hcustom, Bool.false_eq_true, if_false]
      rw [hcpu, hram, hgpu, hpv]
  refine ⟨hmain, fun hnone q hq p hp => ?_⟩
  rw [hmain] at hq
  obtain rfl := (Option.some.inj hq).symm
  obtain ⟨v, hv, rfl⟩ := List.mem_map.mp hp
  simp [hnone]

/-- C4 witness: allocation 2.0, price 0.05, discount 0.1, idle
coefficient 1.0 yields the cost sample 0.09 at the (already snapped)
timestamp 100. -/
theorem getPriceVectors_cost_formula_witness :
    c4Record.nodeData = some c4Node ∧ plainProvider.customPricesEnabled = false ∧ (0 : ℚ) < 1 ∧
    getPriceVectors plainProvider c4Record (1 / 10) 1 =
      some ([{ timestamp := 100, value := 9 / 100 }], [], [], []) := by
  refine ⟨rfl, rfl, one_pos, ?_⟩
  have h := (getPriceVectors_cost_formula plainProvider c4Record c4Node (1 / 10) 1 rfl rfl one_pos).1
  rw [h]
  norm_num [c4Record, c4Node, baseRecord, zeroNode, snapTs, goRound]

/-- C5: after `AggregateCostModel` processes all records, every group's
`SharedCost` is the flat slice `sharedPool / numberOfGroups` and its
`TotalCost` is `CPUCost + RAMCost + GPUCost + PVCost + SharedCost`; with
zero groups the output is empty, so no `0/0` value appears in any
output. -/
theorem aggregate_shared_split (cp : Provider) (costData : List CostData) (field subfield : String)
    (timeSeries : Bool) (d k : ℚ) (sr : Option SharedResourceInfo) (st : AggState)
    (result : List (String × Aggregation)) (recs : List CostData)
    (hloop : aggregateLoop cp costData field subfield d k sr = some st)
    (hagg : AggregateCostModel cp costData field subfield timeSeries d k sr = some (result, recs)) :
    (∀ e ∈ result,
        e.2.sharedCost = st.sharedResourceCost / (result.length : ℚ) ∧
        e.2.totalCost = e.2.cpuCost + e.2.ramCost + e.2.gpuCost + e.2.pvCost + e.2.sharedCost) ∧
    (st.aggregations = [] → result = []) := by
  unfold AggregateCostModel at hagg
  rw [hloop] at hagg
  have hpair := Option.some.inj hagg
  have hres : st.aggregations.map (fun e =>
      (e.1, finalizeAggregation st.sharedResourceCost st.aggregations.length timeSeries e.2)) = result :=
    congrArg Prod.fst hpair
  have hlen : result.length = st.aggregations.length := by
    rw [← hres, List.length_map]
  constructor
  · intro e he
    rw [← hres] at he
    obtain ⟨x, _, rfl⟩ := List.mem_map.mp he
    rw [hlen]
    cases timeSeries <;>
      simp [finalizeAggregation]
  · intro hnil
    rw [← hres, hnil]
    rfl

/-- C5 witness: one record aggregated by namespace gives one group whose
shared cost is the full (zero) pool divided by one and whose total is the
sum of its category costs. -/
theorem aggregate_shared_split_witness :
    aggregateLoop plainProvider [baseRecord] "namespace" "" 0 1 none = some c5State ∧
    AggregateCostModel plainProvider [baseRecord] "namespace" "" false 0 1 none =
      some ([("default", finalizeAggregation 0 1 false c5Agg)], [baseRecord]) ∧
    (finalizeAggregation 0 1 false c5Agg).sharedCost =
      c5State.sharedResourceCost / (([("default", finalizeAggregation 0 1 false c5Agg)]).length : ℚ) ∧
    (finalizeAggregation 0 1 false c5Agg).totalCost =
      (finalizeAggregation 0 1 false c5Agg).cpuCost + (finalizeAggregation 0 1 false c5Agg).ramCost +
        (finalizeAggregation 0 1 false c5Agg).gpuCost + (finalizeAggregation 0 1 false c5Agg).pvCost +
        (finalizeAggregation 0 1 false c5Agg).sharedCost := by
  have hloop : aggregateLoop plainProvider [baseRecord] "namespace" "" 0 1 none = some c5State := rfl
  have hagg : AggregateCostModel plainProvider [baseRecord] "namespace" "" false 0 1 none =
      some ([("default", finalizeAggregation 0 1 false c5Agg)], [baseRecord]) := rfl
  have h := (aggregate_shared_split plainProvider [baseRecord] "namespace" "" false 0 1 none c5State
    [("default", finalizeAggregation 0 1 false c5Agg)] [baseRecord] hloop hagg).1
    ("default", finalizeAggregation 0 1 false c5Agg) (List.mem_singleton.mpr rfl)
  exact ⟨hloop, hagg, h.1, h.2⟩

theorem snapVec_value (v : Vector) : (snapVec v).value = v.value := by
  unfold snapVec
  split <;> rfl

theorem snapList_values (l : List Vector) :
    (snapList l).map Vector.value = l.map Vector.value := by
  unfold snapList
  rw [List.map_map]
  exact List.map_congr_left (fun v _ => snapVec_value v)

theorem mergeVectors_snd (cp : Provider) (r : CostData) (agg : Aggregation) (d k : ℚ)
    (out : Aggregation × CostData) (h : mergeVectors cp r agg d k = some out) :
    out.2 = allocationsSnapped r := by
  simp only [mergeVectors] at h
  cases hg : getPriceVectors cp (allocationsSnapped r) d k with
  | none =>
    rw [hg] at h
    cases h
  | some pv =>
    obtain ⟨cpuv, ramv, gpuv, pvvs⟩ := pv
    rw [hg] at h
    rw [← Option.some.inj h]

theorem aggregateDatum_snd (cp : Provider) (aggs : List (String × Aggregation)) (r : CostData)
    (field subfield key : String) (d k : ℚ) (out : List (String × Aggregation) × CostData)
    (h : aggregateDatum cp aggs r field subfield key d k = some out) :
    out.2 = allocationsSnapped r := by
  simp only [aggregateDatum] at h
  cases hl : aggLookup aggs key with
  | none =>
    rw [hl] at h
    cases hm : mergeVectors cp r
        { aggregator := field, aggregatorSubField := subfield, environment := key,
          cluster := r.clusterID } d k with
    | none =>
      rw [hm] at h
      cases h
    | some pair =>
      rw [hm] at h
      rw [← Option.some.inj h]
      exact mergeVectors_snd cp r _ d k pair hm
  | some a =>
    rw [hl] at h
    cases hm : mergeVectors cp r a d k with
    | none =>
      rw [hm] at h
      cases h
    | some pair =>
      rw [hm] at h
      rw [← Option.some.inj h]
      exact mergeVectors_snd cp r a d k pair hm

theorem aggregateStep_recordsOut (cp : Provider) (field subfield : String) (d k : ℚ)
    (sr : Option SharedResourceInfo) (st : AggState) (r : CostData) (st' : AggState)
    (h : aggregateStep cp field subfield d k sr st r = some st') :
    st'.recordsOut = st.recordsOut ++ [recordPostState field subfield sr r] := by
  unfold aggregateStep at h
  unfold recordPostState
  cases hsh : routedToShared sr r with
  | true =>
    simp only [hsh, if_true] at h ⊢
    cases hg : getPriceVectors cp r d k with
    | none =>
      rw [hg] at h
      cases h
    | some pv =>
      rw [hg] at h
      rw [← Option.some.inj h]
  | false =>
    simp only [hsh, Bool.false_eq_true, if_false] at h ⊢
    cases hkey : resolveKey field subfield r with
    | none =>
      simp only [hkey] at h ⊢
      rw [← Option.some.inj h]
    | some key =>
      simp only [hkey] at h ⊢
      cases hd : aggregateDatum cp st.aggregations r field subfield key d k with
      | none =>
        rw [hd] at h
        exact Option.noConfusion h
      | some out =>
        obtain ⟨aggs1, cd1⟩ := out
        rw [hd] at h
        have h2 := aggregateDatum_snd cp st.aggregations r field subfield key d k (aggs1, cd1) hd
        rw [← Option.some.inj h]
        simpa using congrArg (fun l => st.recordsOut ++ [l]) h2

theorem aggregateFold_none (cp : Provider) (field subfield : String) (d k : ℚ)
    (sr : Option SharedResourceInfo) (l : List CostData) :
    l.foldl (fun acc costDatum =>
      acc.bind (fun s => aggregateStep cp field subfield d k sr s costDatum)) none = none := by
  induction l with
  | nil => rfl
  | cons r rest ih => simpa using ih

theorem aggregateLoop_recordsOut_general (cp : Provider) (field subfield : String) (d k : ℚ)
    (sr : Option SharedResourceInfo) :
    ∀ (l : List CostData) (st0 st : AggState),
      l.foldl (fun acc costDatum =>
        acc.bind (fun s => aggregateStep cp field subfield d k sr s costDatum)) (some st0) = some st →
      st.recordsOut = st0.recordsOut ++ l.map (recordPostState field subfield sr) := by
  intro l
  induction l with
  | nil =>
    intro st0 st h
    obtain rfl := Option.some.inj h
    simp
  | cons r rest ih =>
    intro st0 st h
    rw [List.foldl_cons] at h
    have h' : rest.foldl (fun acc costDatum =>
        acc.bind (fun s => aggregateStep cp field subfield d k sr s costDatum))
        (aggregateStep cp field subfield d k sr st0 r) = some st := h
    cases hstep : aggregateStep cp field subfield d k sr st0 r with
    | none =>
      rw [hstep, aggregateFold_none] at h'
      cases h'
    | some st1 =>
      rw [hstep] at h'
      have hr := ih st1 st h'
      rw [hr, aggregateStep_recordsOut cp field subfield d k sr st0 r st1 hstep]
      simp

/-- C8 counterexample: `AggregateCostModel` is not free of effects on its
input: aggregating one record with CPU allocation point `{t=101, v=1}` by
namespace leaves that record's allocation timestamp snapped to 100 in
place, so its series are changed after the call. -/
theorem aggregate_mutates_input_records :
    (aggregateLoop plainProvider [c8Record] "namespace" "" 0 1 none).map AggState.recordsOut =
      some [{ c8Record with cpuAllocation := [{ timestamp := 100, value := 1 }] }] ∧
    ({ c8Record with cpuAllocation := [{ timestamp := 100, value := 1 }] } : CostData) ≠ c8Record := by
  have h101 : snapTs 101 = 100 := by norm_num [snapTs, goRound]
  constructor
  · have hsome : (aggregateLoop plainProvider [c8Record] "namespace" "" 0 1 none).isSome = true := rfl
    obtain ⟨st, hst⟩ := Option.isSome_iff_exists.mp hsome
    have hrec := aggregateLoop_recordsOut_general plainProvider "namespace" "" 0 1 none [c8Record]
      { aggregations := [], sharedResourceCost := 0, recordsOut := [] } st hst
    rw [hst]
    simp only [Option.map_some']
    rw [hrec]
    simp [recordPostState, routedToShared, resolveKey, allocationsSnapped, snapList, snapVec,
      c8Record, baseRecord, h101]
  · intro h
    have hfield := congrArg CostData.cpuAllocation h
    simp [c8Record, baseRecord] at hfield

/-- C8 (amended): `AggregateCostModel` is a deterministic function of its
inputs, but not effect-free: each input record merged into a group has the
timestamps of its CPU/RAM/GPU allocation series snapped to the 10-second
grid in place; shared-pool and dropped records are untouched, and no
record's values or PVC series change. -/
theorem aggregate_mutation_characterization (cp : Provider) (costData : List CostData)
    (field subfield : String) (d k : ℚ) (sr : Option SharedResourceInfo) (st : AggState)
    (hloop : aggregateLoop cp costData field subfield d k sr = some st) :
    st.recordsOut = costData.map (recordPostState field subfield sr) ∧
    (∀ r : CostData, recordPostState field subfield sr r = r ∨
      recordPostState field subfield sr r = allocationsSnapped r) ∧
    (∀ r : CostData,
      (allocationsSnapped r).pvcData = r.pvcData ∧
      (allocationsSnapped r).cpuAllocation.map Vector.value = r.cpuAllocation.map Vector.value ∧
      (allocationsSnapped r).ramAllocation.map Vector.value = r.ramAllocation.map Vector.value ∧
      (allocationsSnapped r).gpuReq.map Vector.value = r.gpuReq.map Vector.value) := by
  refine ⟨?_, ?_, ?_⟩
  · have h := aggregateLoop_recordsOut_general cp field subfield d k sr costData
      { aggregations := [], sharedResourceCost := 0, recordsOut := [] } st hloop
    simpa using h
  · intro r
    unfold recordPostState
    cases routedToShared sr r with
    | true => exact Or.inl rfl
    | false =>
      cases resolveKey field subfield r with
      | none => exact Or.inl rfl
      | some key => exact Or.inr rfl
  · intro r
    exact ⟨rfl, snapList_values r.cpuAllocation, snapList_values r.ramAllocation,
      snapList_values r.gpuReq⟩

/-- C8 witness: the mutation characterization applied to one concrete
record aggregated by namespace. -/
theorem aggregate_mutation_characterization_witness :
    aggregateLoop plainProvider [baseRecord] "namespace" "" 0 1 none = some c5State ∧
    c5State.recordsOut = [baseRecord].map (recordPostState "namespace" "" none) := by
  have hloop : aggregateLoop plainProvider [baseRecord] "namespace" "" 0 1 none = some c5State := rfl
  exact ⟨hloop, (aggregate_mutation_characterization plainProvider [baseRecord] "namespace" "" 0 1
    none c5State hloop).1⟩

/-- C7 counterexample: two requests that differ only in the
idle-allocation flag and the shared-namespaces parameter — parameters that
change the aggregation result — get the same cache fingerprint, so one can
be served the other's cached value: with the shared namespace configured
the concrete record is pooled and the result has no groups, without it the
result has one group. -/
theorem aggKey_collision :
    aggKey c7Req1 = aggKey c7Req2 ∧
    c7Req1 ≠ c7Req2 ∧
    handlerAggregate c7Req1 plainProvider [c7Record] 0 1 ≠
      handlerAggregate c7Req2 plainProvider [c7Record] 0 1 := by
  refine ⟨rfl, ?_, ?_⟩
  · intro h
    have := congrArg AggregateRequest.allocateIdle h
    simp [c7Req1, c7Req2] at this
  · have h1 : (handlerAggregate c7Req1 plainProvider [c7Record] 0 1).map (fun p => p.1.length) =
        some 1 := rfl
    have h2 : (handlerAggregate c7Req2 plainProvider [c7Record] 0 1).map (fun p => p.1.length) =
        some 0 := rfl
    intro h
    rw [h] at h1
    rw [h1] at h2
    exact Option.noConfusion h2 (fun hx => Nat.noConfusion hx)

/-- C7 (amended): the fingerprint is deterministically derived from
window, offset, namespace filter, cluster filter, grouping field and
subfield, and the time-series flag only; any two requests agreeing on
those seven receive the same fingerprint regardless of the idle-allocation
flag and the shared-namespace/label parameters, so a request can be served
a cached value computed under different idle/shared settings. -/
theorem aggKey_depends_only_on_cached_params (p q : AggregateRequest)
    (hw : p.window = q.window) (ho : p.offset = q.offset)
    (hn : p.namespaceFilter = q.namespaceFilter) (hc : p.cluster = q.cluster)
    (hf : p.field = q.field) (hs : p.subfield = q.subfield)
    (ht : p.timeSeries = q.timeSeries) :
    aggKey p = aggKey q := by
  unfold aggKey
  rw [hw, ho, hn, hc, hf, hs, ht]

/-- C7 witness: the amended theorem applied to the two concrete requests
of the collision, which differ in `allocateIdle` and `sharedNamespaces`. -/
theorem aggKey_depends_only_on_cached_params_witness :
    c7Req1.window = c7Req2.window ∧ c7Req1.timeSeries = c7Req2.timeSeries ∧
    aggKey c7Req1 = aggKey c7Req2 := by
  exact ⟨rfl, rfl, aggKey_depends_only_on_cached_params c7Req1 c7Req2 rfl rfl rfl rfl rfl rfl rfl⟩

end CostModel
